import Mathlib

/- Verification of the PagePlus PAGE-XML processing core (pageplus/models/page.py
and the operation drivers in pageplus/cli/modification.py).

The lxml element tree that `Page` operates on is embedded as a first-child /
next-sibling tree `XTree`: a `node` carries its localname tag (the PAGE
namespace is uniform over a document and is therefore dropped), its attribute
list (in document order, as lxml keeps it), its text content (lxml `.text`,
`none` standing for Python `None`), the chain of its children (via `child`,
linked through `sib`) and its next sibling.  Operations that can raise in
Python (missing attributes, unparsable integers, `find` returning `None`
followed by attribute access) are modelled with `Option`: `none` is an
uncaught exception.

Python's `int()` is modelled for optionally signed decimal digit strings
(surrounding whitespace tolerance of `int()` is not exercised by PAGE files),
`str.isupper` of a single character is modelled for ASCII letters, and
`str.strip()` trims the four ASCII whitespace characters recognised by
`Char.isWhitespace`; the inputs appearing in the claims use none of the
remaining exotic code points. -/

/-! ## Python primitives -/

/-- Python `int(s)` for an optionally signed decimal string. -/
def parsePyDigits (l : List Char) : Option Nat :=
  if l.isEmpty then none
  else l.foldlM (fun acc c => if c.isDigit then some (acc * 10 + (c.toNat - 48)) else none) 0

def parsePyInt (s : String) : Option Int :=
  match s.data with
  | '-' :: rest => (parsePyDigits rest).map (fun n => -(n : Int))
  | '+' :: rest => (parsePyDigits rest).map (fun n => (n : Int))
  | l => (parsePyDigits l).map (fun n => (n : Int))

/-- Stable insertion into a list sorted by an integer key: an element with an
equal key goes after the existing ones, matching Python's stable `sorted`. -/
def insertByKey {α : Type} (key : α → Int) (x : α) : List α → List α
  | [] => [x]
  | y :: ys => if key x < key y then x :: y :: ys else y :: insertByKey key x ys

def sortByKey {α : Type} (key : α → Int) : List α → List α
  | [] => []
  | x :: xs => insertByKey key x (sortByKey key xs)

/-- Attribute lookup in an lxml attribute list (`element.attrib.get`). -/
def lookupAttr : List (String × String) → String → Option String
  | [], _ => none
  | (k, v) :: rest, key => if k == key then some v else lookupAttr rest key

/-- Attribute update (`element.set`): replaces the value of an existing key in
place, otherwise appends the pair, as lxml does. -/
def setAttrList : List (String × String) → String → String → List (String × String)
  | [], key, v => [(key, v)]
  | (k, w) :: rest, key, v =>
    if k == key then (k, v) :: rest else (k, w) :: setAttrList rest key v

/-! ## The XML tree -/

inductive XTree : Type where
  | nil : XTree
  | node (tag : String) (attrs : List (String × String)) (text : Option String)
         (child : XTree) (sib : XTree) : XTree
  deriving DecidableEq, Repr

namespace XTree

def tagOf : XTree → String
  | nil => ""
  | node t _ _ _ _ => t

def attrsOf : XTree → List (String × String)
  | nil => []
  | node _ a _ _ _ => a

def textOf : XTree → Option String
  | nil => none
  | node _ _ s _ _ => s

def childOf : XTree → XTree
  | nil => nil
  | node _ _ _ c _ => c

def sibOf : XTree → XTree
  | nil => nil
  | node _ _ _ _ s => s

def getAttr (x : XTree) (k : String) : Option String := lookupAttr x.attrsOf k

def setAttr (x : XTree) (k v : String) : XTree :=
  match x with
  | nil => nil
  | node t a s c sib => node t (setAttrList a k v) s c sib

/-- Detach an element from its sibling chain (lxml hands out elements whose
identity is independent of their position). -/
def detach : XTree → XTree
  | nil => nil
  | node t a s c _ => node t a s c nil

/-- All elements of a sibling chain and their subtrees in document
(pre-order) order, detached. -/
def descChain : XTree → List XTree
  | nil => []
  | node t a s c sib => node t a s c nil :: descChain c ++ descChain sib

/-- `element.findall(".//*")` / `element.iterfind(".//*")`: all proper
descendants of an element in document order. -/
def descOf (e : XTree) : List XTree := descChain e.childOf

/-- Direct children of an element as a list (`element.findall("./tag")`
filters this). -/
def childrenList (e : XTree) : List XTree := go e.childOf
where go : XTree → List XTree
  | nil => []
  | node t a s c sib => node t a s c nil :: go sib

/-- Number of `tg`-tagged elements in a chain/tree, the element itself
included. -/
def countTag (tg : String) : XTree → Nat
  | nil => 0
  | node t _ _ c sib => (if t == tg then 1 else 0) + countTag tg c + countTag tg sib

/-- Number of `tg`-tagged elements that have a proper ancestor tagged `a`
(`inside` records whether such an ancestor is already above the chain). -/
def countTagUnder (a tg : String) (inside : Bool) : XTree → Nat
  | nil => 0
  | node t _ _ c sib =>
    (if inside && t == tg then 1 else 0) + countTagUnder a tg (inside || t == a) c
      + countTagUnder a tg inside sib

/-- Number of `tg`-tagged elements that do not lie inside any `a`-tagged
subtree (the subtrees of `a`-tagged elements are skipped whole). -/
def countTagAvoid (a tg : String) : XTree → Nat
  | nil => 0
  | node t _ _ c sib =>
    if t == a then countTagAvoid a tg sib
    else (if t == tg then 1 else 0) + countTagAvoid a tg c + countTagAvoid a tg sib

end XTree

/-- Chain a list of detached elements into a sibling chain (tree literals). -/
def chainOf : List XTree → XTree
  | [] => .nil
  | x :: xs =>
    match x with
    | .nil => chainOf xs
    | .node t a s c _ => .node t a s c (chainOf xs)

/-- Element literal: tag, attributes, children. -/
def el (t : String) (a : List (String × String)) (ch : List XTree) : XTree :=
  .node t a none (chainOf ch) .nil

/-- Element literal with text content. -/
def elT (t : String) (a : List (String × String)) (txt : String) (ch : List XTree) : XTree :=
  .node t a (some txt) (chainOf ch) .nil

/-! ## Page.get_region_reading_order_ids (page.py 46-67) -/

/-- The `(int(index), regionRef)` pairs of the direct `RegionRefIndexed`
children of a group (`group.findall("./RegionRefIndexed")`); `none` models the
`KeyError`/`ValueError` Python raises on a missing or unparsable attribute. -/
def regionRefPairs (g : XTree) : Option (List (Int × String)) :=
  (g.childrenList.filter (fun r => r.tagOf == "RegionRefIndexed")).mapM (fun r => do
    let idxs ← r.getAttr "index"
    let idx ← parsePyInt idxs
    let rr ← r.getAttr "regionRef"
    pure (idx, rr))

/-- Region ids collected in document (storage) order: descendants tagged
`TableRegion` or `TextRegion` whose `id` attribute is present and non-empty
(page.py 59-65). -/
def docOrderIds (root : XTree) : List String :=
  (root.descOf.filter (fun e => e.tagOf == "TableRegion" || e.tagOf == "TextRegion")).filterMap
    (fun e => match e.getAttr "id" with
      | some s => if s == "" then none else some s
      | none => none)

/-- Embedding of `Page.get_region_reading_order_ids` (page.py 46-67): for mode
`auto` or `reading_order` the first `ReadingOrder` element is consulted and
every descendant that is an `OrderedGroup` contributes the `regionRef`s of its
direct `RegionRefIndexed` children sorted by `int(index)` (Python's stable
sort); for mode `document`, or for `auto` with an empty collected list, the
document-order region ids are appended. -/
def get_region_reading_order_ids (root : XTree) (mode : String) : Option (List String) := do
  let ro_ids ←
    if ["auto", "reading_order"].contains mode then
      match root.descOf.find? (fun e => e.tagOf == "ReadingOrder") with
      | none => some []
      | some ro =>
        ro.descOf.foldlM (fun acc g =>
          if g.tagOf == "OrderedGroup" then
            (regionRefPairs g).map (fun prs => acc ++ (sortByKey Prod.fst prs).map Prod.snd)
          else pure acc) []
    else some []
  if mode == "document" || (ro_ids.isEmpty && mode == "auto") then
    pure (ro_ids ++ docOrderIds root)
  else pure ro_ids

/-- Option-valued traversal (kept first-order so that proofs can unfold it). -/
def mapMO {α β : Type} (f : α → Option β) : List α → Option (List β)
  | [] => some []
  | a :: l => (f a).bind (fun b => (mapMO f l).map (fun bs => b :: bs))

/-- Spec-side reading of C5's `reading_order` mode, written after the spec's
words: the region ids listed by the `RegionRefIndexed` entries of each
`OrderedGroup` of the reading-order reference, each group's entries sorted by
their `index` attribute. -/
def readingOrderIdsSpec (root : XTree) : Option (List String) :=
  match root.descOf.find? (fun e => e.tagOf == "ReadingOrder") with
  | none => some []
  | some ro =>
    (mapMO (fun g => (regionRefPairs g).map (fun prs => (sortByKey Prod.fst prs).map Prod.snd))
      (ro.descOf.filter (fun g => g.tagOf == "OrderedGroup"))).map List.flatten

/-! ## Page.page_size and Page.page_coords (page.py 211-237) -/

/-- Embedding of `Page.page_size`: `imageWidth` and `imageHeight` of the
direct `Page` child of the root; `none` models the exception raised when the
element or an attribute is missing or unparsable. -/
def page_size (root : XTree) : Option (Int × Int) := do
  let pinfo ← root.childrenList.find? (fun e => e.tagOf == "Page")
  let w ← (pinfo.getAttr "imageWidth").bind parsePyInt
  let h ← (pinfo.getAttr "imageHeight").bind parsePyInt
  pure (w, h)

/-- Results of `Page.page_coords`: the string format or one of the coordinate
carriers (shapely `MultiPoint`/`Polygon`/`LinearRing` reduced to the vertex
list they are built from). -/
inductive PCoordsRes : Type where
  | str (s : String)
  | tuples (l : List (Int × Int))
  | points (l : List (Int × Int))
  | polygon (l : List (Int × Int))
  | linearring (l : List (Int × Int))
  deriving DecidableEq, Repr

def valid_returntypes : List String := ["string", "tuples", "points", "polygon", "linearring"]

/-- Embedding of `Page.page_coords` (page.py 211-230). The outer `Option` is
exception behaviour (`page_size` failing), the inner `Option` is Python's
`None` return value: an invalid `returntype` returns `None` before the page
size is ever touched. -/
def page_coords (root : XTree) (returntype : String) : Option (Option PCoordsRes) :=
  if returntype ∈ valid_returntypes then
    match page_size root with
    | none => none
    | some (w, h) =>
      let ct : List (Int × Int) := [(0, 0), (w, 0), (w, h), (0, h)]
      if returntype == "string" then
        some (some (.str (String.intercalate " "
          (ct.map (fun p => toString p.1 ++ "," ++ toString p.2)))))
      else if returntype == "tuples" then some (some (.tuples ct))
      else if returntype == "points" then some (some (.points ct))
      else if returntype == "polygon" then some (some (.polygon ct))
      else if returntype == "linearring" then some (some (.linearring ct))
      else some none
  else some none

/-! ## Page.dehyphe (page.py 159-189) -/

/-- The hyphen glyph list of `Page.dehyphe` as written in the source: an ASCII
hyphen (twice), U+2E40 and U+2E17. -/
def pyHyphens : List Char := ['-', '-', Char.ofNat 0x2E40, Char.ofNat 0x2E17]

/-- Python `line.strip()` (ASCII whitespace). -/
def pyStrip (s : String) : String :=
  ⟨(s.data.dropWhile Char.isWhitespace).reverse.dropWhile Char.isWhitespace |>.reverse⟩

/-- Python `s.lstrip()`. -/
def pyLstrip (s : String) : String := ⟨s.data.dropWhile Char.isWhitespace⟩

/-- Python `s.rstrip(chars)` for a character set. -/
def pyRstripChars (cs : List Char) (s : String) : String :=
  ⟨(s.data.reverse.dropWhile (fun c => cs.contains c)).reverse⟩

/-- Python `s.split(' ', 1)[0]`. -/
def firstWord (s : String) : String := ⟨s.data.takeWhile (fun c => c ≠ ' ')⟩

/-- Python `first_word_next_line[0].isupper()` (ASCII). -/
def firstCharUpper (s : String) : Bool :=
  match s.data with
  | [] => false
  | c :: _ => c.isUpper

/-- Whether a line is non-empty and ends in one of the hyphen glyphs
(`current_line and current_line[-1] in hyphens`). -/
def endsInHyphen (s : String) : Bool :=
  match s.data.getLast? with
  | none => false
  | some c => pyHyphens.contains c

/-- The loop of `Page.dehyphe` (page.py 173-187), with the mutation
`lines[i + 1] = ...` carried as the head of the remaining list.  Note that the
reassignment of the next line happens in BOTH branches of the upper-case test:
the next line loses its first word even when no join is performed. -/
def dehypheGo (cur : String) : List String → List String
  | [] => [cur]
  | nxt :: rest =>
    if endsInHyphen cur then
      let fw := firstWord nxt
      if fw == "" then cur :: dehypheGo nxt rest
      else
        let nxt' := pyLstrip ⟨nxt.data.drop fw.data.length⟩
        if firstCharUpper fw then cur :: dehypheGo nxt' rest
        else (pyRstripChars pyHyphens cur ++ fw) :: dehypheGo nxt' rest
    else cur :: dehypheGo nxt rest

/-- Embedding of the static method `Page.dehyphe` (page.py 159-189): empty
strings are dropped, the rest stripped, then the hyphen-joining pass runs. -/
def dehyphe (lines : List String) : List String :=
  if lines.isEmpty then []
  else
    match (lines.filter (fun l => l ≠ "")).map pyStrip with
    | [] => []
    | l :: rest => dehypheGo l rest

/-! ## Page.extract_fulltext (page.py 191-209) -/

/-- The non-empty `Unicode` texts of all `TextLine` descendants of an element,
in document order (the list comprehensions of page.py 200-204). -/
def unicodeTextsUnder (e : XTree) : List String :=
  (e.descOf.filter (fun tl => tl.tagOf == "TextLine")).flatMap (fun tl =>
    (tl.descOf.filter (fun u => u.tagOf == "Unicode")).filterMap (fun u =>
      match u.textOf with
      | some s => if s == "" then none else some s
      | none => none))

/-- Embedding of `Page.extract_fulltext` (page.py 191-209).  With
`reading_order` the loop body ASSIGNS `fulltext` for every region of the
resolved reading order instead of extending it, exactly as the source does
(page.py 200), so each iteration discards the previous regions' text; the
source also calls `get_region_reading_order_ids()` with its default mode
`auto`, ignoring the `reading_order_mode` parameter.  A reading-order id with
no matching element makes the source raise (`region` is `None`), modelled by
`none`. -/
def extract_fulltext (root : XTree) (dehyphenate reading_order : Bool)
    (delimiter : String) : Option String := do
  let ft ←
    if reading_order then
      match get_region_reading_order_ids root "auto" with
      | none => none
      | some ids =>
        ids.foldlM (fun _prev rid =>
          match root.descOf.find? (fun e => e.getAttr "id" == some rid) with
          | none => none
          | some region => some (unicodeTextsUnder region)) []
    else some (unicodeTextsUnder root)
  let ft := if dehyphenate && !ft.isEmpty then dehyphe ft else ft
  pure (String.intercalate delimiter ft)

/-! ## Page.delete_textlevel (page.py 246-297)

`Page._delete_lines` walks `region.textlines` of every `TextRegion` object
and, through `TableRegion.textlines` (table_elements.py 34-42), of every
`TableCell` of every `TableRegion`.  The `Textline` model class itself lives
in the absent `models/text_elements.py`; modelled from the spec: a region
"owns an ordered sequence of Lines", i.e. `region.textlines` are the
`TextLine` descendants of the region's element (for a table region, of its
`TableCell` elements).  The traversals below thread that containment as
boolean flags; PAGE XML does not nest a region inside another region, so one
pass visits each line exactly once, as the source loops do. -/

/-- Remove every `tg`-tagged element of a chain together with its subtree
(`Page._delete_words` iterating `root.iter("Word")` and detaching each). -/
def stripTag (tg : String) : XTree → XTree
  | .nil => .nil
  | .node t a s c sib =>
    if t == tg then stripTag tg sib
    else .node t a s (stripTag tg c) (stripTag tg sib)

/-- Remove the first `tg`-tagged element of a sibling chain, subtree included
(`element.find(tg)` followed by `delete_element`). -/
def dropFirstChild (tg : String) : XTree → XTree
  | .nil => .nil
  | .node t a s c sib => if t == tg then sib else .node t a s c (dropFirstChild tg sib)

/-- `Page._delete_lines`: drop the first direct `TextEquiv` child of every
`TextLine` that lies under a `TextRegion`, or under a `TableCell` that lies
under a `TableRegion`. -/
def delLinesT (inReg inTab : Bool) : XTree → XTree
  | .nil => .nil
  | .node t a s c sib =>
    let inReg' := inReg || t == "TextRegion" || (inTab && t == "TableCell")
    let inTab' := inTab || t == "TableRegion"
    let c' := delLinesT inReg' inTab' c
    let c'' := if inReg && t == "TextLine" then dropFirstChild "TextEquiv" c' else c'
    .node t a s c'' (delLinesT inReg inTab sib)

/-- `Page._delete_regions`: drop the first direct `TextEquiv` child of every
`TextRegion` and `TableRegion` element. -/
def delRegionsT : XTree → XTree
  | .nil => .nil
  | .node t a s c sib =>
    let c' := delRegionsT c
    let c'' := if t == "TextRegion" || t == "TableRegion" then dropFirstChild "TextEquiv" c'
               else c'
    .node t a s c'' (delRegionsT sib)

/-- Embedding of `Page.delete_textlevel` (page.py 252-263): dispatch on the
level, any other value leaves the document untouched.  For `word` the strip
runs over the root's children (detaching the root itself would make the
source raise on `getparent()`); a PAGE root is never a `Word`. -/
def delete_textlevel (p : XTree) (level : String) : XTree :=
  if level == "word" then
    match p with
    | .nil => .nil
    | .node t a s c sib => .node t a s (stripTag "Word" c) sib
  else if level == "line" then delLinesT false false p
  else if level == "region" then delRegionsT p
  else p

/-! ## Page.valid_region_id and Page.reassign_ids (page.py 69-120) -/

/-- Embedding of `Page.valid_region_id`: look up the first element whose `id`
is `r` followed by `idnum`; absent means valid, and a found element passes
when `not region` holds — lxml elements without children are falsy — or when
it is a `TableRegion`/`TextRegion`. -/
def valid_region_id (root : XTree) (idnum : String) : Bool :=
  match root.descOf.find? (fun e => e.getAttr "id" == some ("r" ++ idnum)) with
  | none => true
  | some e =>
    (match e.childOf with | .nil => true | _ => false)
      || e.tagOf == "TableRegion" || e.tagOf == "TextRegion"

/-- The `element['order']` table of `reassign_ids`. -/
def tagOrder : String → Option String
  | "TableRegion" => some "TableCell"
  | "TableCell" => some "TextLine"
  | "TextRegion" => some "TextLine"
  | "TextLine" => some "Word"
  | "Word" => some "Glyph"
  | _ => none

/-- The `element['id']` table of `reassign_ids` (Python would render a missing
tag as `None`; the table is only consulted for the six tags above). -/
def tagLetter : String → String
  | "TableRegion" => "r"
  | "TableCell" => "c"
  | "TextRegion" => "r"
  | "TextLine" => "l"
  | "Word" => "w"
  | "Glyph" => "g"
  | _ => ""

/-- The `Counter` over the id letters: association list with Python's
missing-key-reads-zero behaviour. -/
def Cnt := List (String × Nat)

def cget (c : Cnt) (k : String) : Nat :=
  match c with
  | [] => 0
  | (k', v) :: rest => if k' == k then v else cget rest k

def cset (c : Cnt) (k : String) (v : Nat) : Cnt :=
  match c with
  | [] => [(k, v)]
  | (k', w) :: rest => if k' == k then (k', v) :: rest else (k', w) :: cset rest k v

def cbump (c : Cnt) (k : String) : Cnt := cset c k (cget c k + 1)

/-- `Counter(set(element['id'].values()))`: every id letter counted once. -/
def initCnt : Cnt := [("r", 1), ("c", 1), ("l", 1), ("w", 1), ("g", 1)]

/-- Embedding of `Page.__reassign_id` (page.py 73-80) on a sibling chain:
every `tg`-tagged element in the chain or below receives
`pfx ++ letter ++ counter`, the counter is bumped, and when the order table
chains on, the children are renamed under the next tag with the inner call's
trailing counter reset (`element['counter'][...] = 1`).  The subtree of a
renamed element is not rescanned for `tg` itself: in PAGE XML an element
never nests another element of its own tag. -/
def scanAssign (tg pfx : String) : XTree → Cnt → XTree × Cnt
  | .nil, cnt => (.nil, cnt)
  | .node t a s c sib, cnt =>
    if t == tg then
      let L := tagLetter tg
      let newId := pfx ++ L ++ toString (cget cnt L)
      let a' := setAttrList a "id" newId
      let cnt1 := cbump cnt L
      let step :=
        match tagOrder tg with
        | some nt =>
          let inner := scanAssign nt newId c cnt1
          (inner.1, cset inner.2 (tagLetter nt) 1)
        | none => (c, cnt1)
      let rest := scanAssign tg pfx sib step.2
      (.node t a' s step.1 rest.1, rest.2)
    else
      let cstep := scanAssign tg pfx c cnt
      let rest := scanAssign tg pfx sib cstep.2
      (.node t a s cstep.1 rest.1, rest.2)

/-- Descendant elements of a chain with their paths (sibling index per
nesting level), in document order, detached. -/
def descPathsChain (i : Nat) : XTree → List (List Nat × XTree)
  | .nil => []
  | .node t a s c sib =>
    ([i], XTree.node t a s c .nil) :: (descPathsChain 0 c).map (fun pe => (i :: pe.1, pe.2))
      ++ descPathsChain (i + 1) sib

/-- Paths of all proper descendants of the root (`root.findall(".//*")`). -/
def descPathsOf (root : XTree) : List (List Nat × XTree) := descPathsChain 0 root.childOf

/-- Reattach a rewritten element in front of its old sibling chain. -/
def reattach : XTree → XTree → XTree
  | .nil, sib => sib
  | .node t a s c _, sib => .node t a s c sib

/-- Rewrite the element at a path inside a chain, threading a state through
the rewriting function (lxml mutates elements in place; the state carries the
counter dictionary). -/
def modifyAtS {σ : Type} (f : XTree → σ → XTree × σ) : XTree → List Nat → σ → XTree × σ
  | .nil, _, st => (.nil, st)
  | .node t a s c sib, [], st => (.node t a s c sib, st)
  | .node t a s c sib, [0], st =>
    let r := f (.node t a s c .nil) st
    (reattach r.1 sib, r.2)
  | .node t a s c sib, 0 :: j :: rest, st =>
    let r := modifyAtS f c (j :: rest) st
    (.node t a s r.1 sib, r.2)
  | .node t a s c sib, (i + 1) :: rest, st =>
    let r := modifyAtS f sib (i :: rest) st
    (.node t a s c r.1, r.2)

/-- Rewrite the element at a path under the root. -/
def modifyAtRootS {σ : Type} (f : XTree → σ → XTree × σ) (root : XTree) (p : List Nat)
    (st : σ) : XTree × σ :=
  match root with
  | .nil => (.nil, st)
  | .node t a s c sib =>
    let r := modifyAtS f c p st
    (.node t a s r.1 sib, r.2)

/-- Keys of the `region_ids` dict: the string `id` attribute, or — when a
region carries no `id` — the integer `len(region_ids.keys())` Python uses as
the default, which can never equal a string key. -/
inductive PyKey : Type where
  | s (v : String)
  | i (v : Nat)
  deriving DecidableEq, Repr

/-- `region_ids.__setitem__(ro_id, [])`: reset an existing key in place or
append a fresh one (Python dicts preserve insertion order). -/
def setItemEmpty (g : List (PyKey × List (List Nat))) (k : PyKey) :
    List (PyKey × List (List Nat)) :=
  match g with
  | [] => [(k, [])]
  | (k', v) :: rest => if k' = k then (k', []) :: rest else (k', v) :: setItemEmpty rest k

/-- `region_ids[key].append(region)` on a `defaultdict(list)`: append to an
existing key's list or create the key at the end. -/
def appendItem (g : List (PyKey × List (List Nat))) (k : PyKey) (p : List Nat) :
    List (PyKey × List (List Nat)) :=
  match g with
  | [] => [(k, [p])]
  | (k', v) :: rest => if k' = k then (k', v ++ [p]) :: rest else (k', v) :: appendItem rest k p

/-- The grouping phase of `reassign_ids` (page.py 98-104): reading-order ids
become keys first, then every `TableRegion`/`TextRegion` descendant is
appended under its current id (or under the integer default). -/
def buildGroups (roIds : List String) (regions : List (List Nat × XTree)) :
    List (PyKey × List (List Nat)) :=
  let g0 := roIds.foldl (fun g rid => setItemEmpty g (.s rid)) []
  regions.foldl (fun g pe =>
    let k : PyKey :=
      match pe.2.getAttr "id" with
      | some s => .s s
      | none => .i g.length
    appendItem g k pe.1) g0

/-- The `while not self.valid_region_id(...)` loop, with enough fuel to pass
every id present in the document. -/
def findValidCnt (root : XTree) (c : Nat) : Nat → Nat
  | 0 => c
  | fuel + 1 => if valid_region_id root (toString c) then c else findValidCnt root (c + 1) fuel

/-- Rename one region element: set its id to `r` + counter and rename its
children through the order table, with the call's trailing counter reset. -/
def renameRegion (c : Nat) (e : XTree) (cnt : Cnt) : XTree × Cnt :=
  match e with
  | .nil => (.nil, cnt)
  | .node t a s ch sib =>
    let newId := "r" ++ toString c
    let a' := setAttrList a "id" newId
    match tagOrder t with
    | some nt =>
      let inner := scanAssign nt newId ch cnt
      (.node t a' s inner.1 sib, cset inner.2 (tagLetter nt) 1)
    | none => (.node t a' s ch sib, cnt)

/-- The main loop of `reassign_ids` (page.py 105-113): for each group in dict
order, advance the `r` counter past ids `valid_region_id` rejects, record the
bare number string in the id-mapping (as the source does — without the `r`
prefix), rename every region of the group, and bump the counter. -/
def processGroups (root : XTree) (cntR : Nat) (cnt : Cnt)
    (mapping : List (PyKey × String)) :
    List (PyKey × List (List Nat)) → XTree × Nat × Cnt × List (PyKey × String)
  | [] => (root, cntR, cnt, mapping)
  | (k, paths) :: rest =>
    let c := findValidCnt root cntR (root.descOf.length + 1)
    let mapping' := mapping ++ [(k, toString c)]
    let step := paths.foldl (fun acc p => modifyAtRootS (renameRegion c) acc.1 p acc.2)
      (root, cnt)
    processGroups step.1 (c + 1) step.2 mapping' rest

def mapLookup (m : List (PyKey × String)) (k : PyKey) : Option String :=
  match m with
  | [] => none
  | (k', v) :: rest => if k' = k then some v else mapLookup rest k

/-- The reference-rewriting phase (page.py 114-120): inside the first
`ReadingOrder` element every `RegionRefIndexed` descendant has its
`regionRef` mapped through the id-mapping, absent keys left alone.  The
source's nested loop re-applies the mapping once per proper ancestor group of
a reference; a single application is equivalent because the mapping's values
(bare number strings) are not among its keys (region ids). -/
def rewriteRRI (m : List (PyKey × String)) : XTree → XTree
  | .nil => .nil
  | .node t a s c sib =>
    let a' :=
      if t == "RegionRefIndexed" then
        match lookupAttr a "regionRef" with
        | some old => setAttrList a "regionRef" ((mapLookup m (.s old)).getD old)
        | none => a
      else a
    .node t a' s (rewriteRRI m c) (rewriteRRI m sib)

/-- Path of the first descendant satisfying a predicate. -/
def findDescPath (p : XTree → Bool) (root : XTree) : Option (List Nat) :=
  ((descPathsOf root).find? (fun pe => p pe.2)).map (fun pe => pe.1)

def rewriteRefs (root : XTree) (m : List (PyKey × String)) : XTree :=
  match findDescPath (fun e => e.tagOf == "ReadingOrder") root with
  | none => root
  | some p =>
    (modifyAtRootS (fun e st =>
      (match e with
       | .nil => (.nil, st)
       | .node t a s c sib => (.node t a s (rewriteRRI m c) sib, st)) ) root p ()).1

/-- Embedding of `Page.reassign_ids` (page.py 82-120): resolve the reading
order under the given mode, group the regions, rename group by group, and
rewrite the reading-order references through the id-mapping. -/
def reassign_ids (root : XTree) (mode : String) : Option XTree := do
  let roIds ← get_region_reading_order_ids root mode
  let regions := (descPathsOf root).filter
    (fun pe => pe.2.tagOf == "TableRegion" || pe.2.tagOf == "TextRegion")
  let groups := buildGroups roIds regions
  let step := processGroups root 1 initCnt [] groups
  pure (rewriteRefs step.1 step.2.2.2)

/-- The region ids of a document in storage order (for stating what
`reassign_ids` produced). -/
def regionIdsDoc (root : XTree) : List String :=
  (root.descOf.filter (fun e => e.tagOf == "TableRegion" || e.tagOf == "TextRegion")).filterMap
    (fun e => e.getAttr "id")

/-- The `regionRef` entries of all `RegionRefIndexed` elements in storage
order. -/
def refIdsDoc (root : XTree) : List String :=
  (root.descOf.filter (fun e => e.tagOf == "RegionRefIndexed")).filterMap
    (fun e => e.getAttr "regionRef")

/-- All `id` attributes anywhere in the document, in storage order. -/
def allIdsDoc (root : XTree) : List String :=
  root.descOf.filterMap (fun e => e.getAttr "id")

/-! ## The operation drivers (cli/modification.py)

The drivers are thin batch loops: collect the XML files, fail hard when none
were found, loop over the files, run per-region/per-line operations, and save
unless a dry-run flag suppresses the write.  The per-line geometric
operations (`Line.buffer`, `fit_into_parent`, ...) live in the absent
`models/text_elements.py`; modelled from the spec ("every geometric operation
on a Line may fail independently"): an oracle `fails : String → Bool` decides
whether the operation on a given line id raises.  A driver run is observed
through its event list — one event per processed line (caught failures are
logged) and one per written file — and `Except` carries an uncaught
exception. -/

/-- One input file: its name and its regions' line ids (text regions and
table cells flattened, in the order the drivers traverse them). -/
structure PFile : Type where
  name : String
  regions : List (List String)
  deriving DecidableEq, Repr

inductive DEvent : Type where
  | processed (line : String)
  | lineError (line : String)
  | wrote (file : String)
  deriving DecidableEq, Repr

/-- The per-line try/except bodies (log and continue). -/
def perLineEvent (fails : String → Bool) (l : String) : DEvent :=
  if fails l then .lineError l else .processed l

def writeEvent (dry : Bool) (f : PFile) : List DEvent :=
  if dry then [] else [.wrote f.name]

/-- Driver `repair` (modification.py 110-169): empty input raises
`FileNotFoundError`; each line is repaired under a try/except; the file is
saved unless `dry_run`. -/
def repair_driver (files : List PFile) (fails : String → Bool) (dry_run : Bool) :
    Except String (List DEvent) :=
  if files.isEmpty then .error "FileNotFoundError"
  else .ok (files.flatMap (fun f =>
    f.regions.flatMap (fun reg => reg.map (perLineEvent fails)) ++ writeEvent dry_run f))

/-- Driver `reassign_ids` (modification.py 78-108). -/
def reassign_ids_driver (files : List PFile) (dry_run : Bool) :
    Except String (List DEvent) :=
  if files.isEmpty then .error "FileNotFoundError"
  else .ok (files.flatMap (fun f => writeEvent dry_run f))

/-- Driver `delete_text` (modification.py 172-206): no dry-run parameter, the
file is always saved. -/
def delete_text_driver (files : List PFile) : Except String (List DEvent) :=
  if files.isEmpty then .error "FileNotFoundError"
  else .ok (files.map (fun f => .wrote f.name))

/-- Driver `sort_and_merge` (modification.py 390-435): no dry-run parameter,
the file is always saved. -/
def sort_and_merge_driver (files : List PFile) : Except String (List DEvent) :=
  if files.isEmpty then .error "FileNotFoundError"
  else .ok (files.map (fun f => .wrote f.name))

/-- Driver `pseudolinepolygon` (modification.py 348-387): per-line try/except,
no dry-run parameter, the file is always saved. -/
def pseudolinepolygon_driver (files : List PFile) (fails : String → Bool) :
    Except String (List DEvent) :=
  if files.isEmpty then .error "FileNotFoundError"
  else .ok (files.flatMap (fun f =>
    f.regions.flatMap (fun reg => reg.map (perLineEvent fails)) ++ [.wrote f.name]))

/-- The try-protected body of the `extend_lines` per-line loop
(modification.py 334-341): the line operation may raise, and for
`cut_overlaps` on a non-first line the helper `process_overlapping_lines`
runs, whose final statement is the misplaced `if not xml_files: raise
FileNotFoundError` of modification.py 325-326 — it executes only inside the
per-file loop and behind the per-line try, so it can never abort the
driver. -/
def extendLineEvent (filesEmpty : Bool) (fails : String → Bool) (cut : Bool)
    (idx : Nat) (l : String) : DEvent :=
  if fails l then .lineError l
  else if cut && decide (0 < idx) && filesEmpty then .lineError l
  else .processed l

/-- Driver `extend_lines` (modification.py 289-345): the only driver whose
empty-input check sits inside the nested helper instead of before the file
loop — an empty input list simply yields an empty run. -/
def extend_lines_driver (files : List PFile) (fails : String → Bool)
    (cut_overlaps dry_run : Bool) : Except String (List DEvent) :=
  .ok (files.flatMap (fun f =>
    f.regions.flatMap (fun reg =>
      reg.enum.map (fun il => extendLineEvent files.isEmpty fails cut_overlaps il.1 il.2)) ++
    writeEvent dry_run f))

/-- The unprotected per-line loop of `translate_lines` (modification.py
275-281): no try/except, so the first failing line raises out of the whole
driver. -/
def translateLineRun (fails : String → Bool) : List String → Except String (List DEvent)
  | [] => .ok []
  | l :: rest =>
    if fails l then .error l
    else (translateLineRun fails rest).map (fun evs => .processed l :: evs)

def translateRegionsRun (fails : String → Bool) : List (List String) → Except String (List DEvent)
  | [] => .ok []
  | reg :: rest =>
    match translateLineRun fails reg with
    | .error e => .error e
    | .ok evs =>
      match translateRegionsRun fails rest with
      | .error e => .error e
      | .ok evs' => .ok (evs ++ evs')

def translateFileRun (fails : String → Bool) (dry : Bool) (f : PFile) :
    Except String (List DEvent) :=
  match translateRegionsRun fails f.regions with
  | .error e => .error e
  | .ok evs => .ok (evs ++ writeEvent dry f)

def translateRun (fails : String → Bool) (dry : Bool) : List PFile → Except String (List DEvent)
  | [] => .ok []
  | f :: rest =>
    match translateFileRun fails dry f with
    | .error e => .error e
    | .ok evs =>
      match translateRun fails dry rest with
      | .error e => .error e
      | .ok evs' => .ok (evs ++ evs')

/-- Driver `translate_lines` (modification.py 248-286): empty input raises;
lines are processed without a per-line try/except; the file is saved unless
`dry_run`.  (An exception in a later file leaves earlier files already
written on disk; the event list of an aborted run is collapsed into the
error, which none of the claims observes.) -/
def translate_lines_driver (files : List PFile) (fails : String → Bool)
    (dry_run : Bool) : Except String (List DEvent) :=
  if files.isEmpty then .error "FileNotFoundError"
  else translateRun fails dry_run files

/-- The file name a write event carries. -/
def wroteName : DEvent → Option String
  | .wrote n => some n
  | _ => none

/-- The names of the files a driver run wrote. -/
def writesOf : Except String (List DEvent) → List String
  | .error _ => []
  | .ok evs => evs.filterMap wroteName

/-! ## Concrete pages for the end-to-end scenarios -/

/-- Scenario C page: regions stored in physical order r5, r2, r9 while the
reading-order reference lists r9, r5, r2. -/
def pageC1 : XTree := el "PcGts" [] [
  el "Page" [("imageWidth", "1000"), ("imageHeight", "800")] [
    el "ReadingOrder" [] [
      el "OrderedGroup" [("id", "ro1")] [
        el "RegionRefIndexed" [("index", "0"), ("regionRef", "r9")] [],
        el "RegionRefIndexed" [("index", "1"), ("regionRef", "r5")] [],
        el "RegionRefIndexed" [("index", "2"), ("regionRef", "r2")] []]],
    el "TextRegion" [("id", "r5")] [],
    el "TextRegion" [("id", "r2")] [],
    el "TextRegion" [("id", "r9")] []]]

/-- What `reassign_ids` makes of the scenario C page: the regions receive
r1/r2/r3 following the reading order (r9 first), but every reading-order
reference is rewritten to the bare number the id-mapping stores. -/
def pageC1After : XTree := el "PcGts" [] [
  el "Page" [("imageWidth", "1000"), ("imageHeight", "800")] [
    el "ReadingOrder" [] [
      el "OrderedGroup" [("id", "ro1")] [
        el "RegionRefIndexed" [("index", "0"), ("regionRef", "1")] [],
        el "RegionRefIndexed" [("index", "1"), ("regionRef", "2")] [],
        el "RegionRefIndexed" [("index", "2"), ("regionRef", "3")] []]],
    el "TextRegion" [("id", "r2")] [],
    el "TextRegion" [("id", "r3")] [],
    el "TextRegion" [("id", "r1")] []]]

/-- A page with two text regions carrying text, both listed by the reading
order (region rA before rB). -/
def pageTwoRegions : XTree := el "PcGts" [] [
  el "Page" [("imageWidth", "1000"), ("imageHeight", "800")] [
    el "ReadingOrder" [] [
      el "OrderedGroup" [("id", "ro1")] [
        el "RegionRefIndexed" [("index", "0"), ("regionRef", "rA")] [],
        el "RegionRefIndexed" [("index", "1"), ("regionRef", "rB")] []]],
    el "TextRegion" [("id", "rA")] [
      el "TextLine" [("id", "lA")] [
        el "TextEquiv" [] [elT "Unicode" [] "AAA" []]]],
    el "TextRegion" [("id", "rB")] [
      el "TextLine" [("id", "lB")] [
        el "TextEquiv" [] [elT "Unicode" [] "BBB" []]]]]]

/-- A page whose single word carries its own `Coords` geometry (as every PAGE
`Word` does) and whose text line holds two `TextEquiv` children. -/
def pageWithWord : XTree := el "PcGts" [] [
  el "Page" [("imageWidth", "1000"), ("imageHeight", "800")] [
    el "TextRegion" [("id", "rA")] [
      el "Coords" [("points", "0,0 10,0 10,10 0,10")] [],
      el "TextLine" [("id", "lA")] [
        el "Coords" [("points", "0,0 10,0 10,5 0,5")] [],
        el "Baseline" [("points", "0,4 10,4")] [],
        el "Word" [("id", "wA")] [
          el "Coords" [("points", "1,0 9,0 9,5 1,5")] [],
          el "TextEquiv" [] [elT "Unicode" [] "foo" []]],
        el "TextEquiv" [] [elT "Unicode" [] "foo" []],
        el "TextEquiv" [("index", "1")] [elT "Unicode" [] "f00" []]],
      el "TextEquiv" [] [elT "Unicode" [] "foo" []]]]]

/-! ## Spec-side relations for the delete_textlevel levels

The relations below render the delete-level behaviour declaratively, after
the words of the (amended) C9 claim: which elements lose what, with every
other element keeping its tag, attributes, text, children and position.  A
transformation that removes nothing (or the wrong thing) does not stand in
these relations as soon as a `TextEquiv`/`Word` is present, so proving
`delete_textlevel` related to its input settles the removal behaviour, not
only what is preserved. -/

/-- The second chain is the first with the first `tg`-tagged element of the
top-level sibling chain removed, subtree included; a chain without one is
unchanged. -/
inductive RemovesFirstTagged (tg : String) : XTree → XTree → Prop where
  | nil : RemovesFirstTagged tg .nil .nil
  | here (t : String) (a : List (String × String)) (s : Option String) (c sib : XTree) :
      (t == tg) = true → RemovesFirstTagged tg (.node t a s c sib) sib
  | there (t : String) (a : List (String × String)) (s : Option String) (c sib sib' : XTree) :
      (t == tg) = false → RemovesFirstTagged tg sib sib' →
      RemovesFirstTagged tg (.node t a s c sib) (.node t a s c sib')

/-- Word level, after the amended C9 wording: every `Word` element of a chain
is removed together with its subtree; every other element keeps its tag,
attributes, text and position, its children relatedly stripped. -/
inductive WordStripRel : XTree → XTree → Prop where
  | nil : WordStripRel .nil .nil
  | drop (t : String) (a : List (String × String)) (s : Option String) (c sib sib' : XTree) :
      (t == "Word") = true → WordStripRel sib sib' →
      WordStripRel (.node t a s c sib) sib'
  | keep (t : String) (a : List (String × String)) (s : Option String) (c sib c' sib' : XTree) :
      (t == "Word") = false → WordStripRel c c' → WordStripRel sib sib' →
      WordStripRel (.node t a s c sib) (.node t a s c' sib')

/-- Line level, after the amended C9 wording: every element keeps its tag,
attributes, text and position and has its children related under the region
context (under a `TextRegion`, or under a `TableCell` under a
`TableRegion`); a `TextLine` in region context additionally loses the first
`TextEquiv` of its (related) children.  Nothing else may change. -/
inductive LineLevelRel : Bool → Bool → XTree → XTree → Prop where
  | nil (inR inT : Bool) : LineLevelRel inR inT .nil .nil
  | line (inR inT : Bool) (t : String) (a : List (String × String)) (s : Option String)
      (c sib c₁ c₂ sib' : XTree) :
      (inR && (t == "TextLine")) = true →
      LineLevelRel (inR || t == "TextRegion" || (inT && t == "TableCell"))
        (inT || t == "TableRegion") c c₁ →
      RemovesFirstTagged "TextEquiv" c₁ c₂ →
      LineLevelRel inR inT sib sib' →
      LineLevelRel inR inT (.node t a s c sib) (.node t a s c₂ sib')
  | keep (inR inT : Bool) (t : String) (a : List (String × String)) (s : Option String)
      (c sib c' sib' : XTree) :
      (inR && (t == "TextLine")) = false →
      LineLevelRel (inR || t == "TextRegion" || (inT && t == "TableCell"))
        (inT || t == "TableRegion") c c' →
      LineLevelRel inR inT sib sib' →
      LineLevelRel inR inT (.node t a s c sib) (.node t a s c' sib')

/-- Region level, after the amended C9 wording: every `TextRegion` or
`TableRegion` element loses the first `TextEquiv` of its (related) children;
every other element keeps everything, children related recursively. -/
inductive RegionLevelRel : XTree → XTree → Prop where
  | nil : RegionLevelRel .nil .nil
  | region (t : String) (a : List (String × String)) (s : Option String)
      (c sib c₁ c₂ sib' : XTree) :
      (t == "TextRegion" || t == "TableRegion") = true →
      RegionLevelRel c c₁ → RemovesFirstTagged "TextEquiv" c₁ c₂ →
      RegionLevelRel sib sib' →
      RegionLevelRel (.node t a s c sib) (.node t a s c₂ sib')
  | keep (t : String) (a : List (String × String)) (s : Option String)
      (c sib c' sib' : XTree) :
      (t == "TextRegion" || t == "TableRegion") = false →
      RegionLevelRel c c' → RegionLevelRel sib sib' →
      RegionLevelRel (.node t a s c sib) (.node t a s c' sib')

/-! ## Claims -/

/-- Claim C1.  On the scenario C page (regions stored as r5, r2, r9, reading
order r9, r5, r2) `reassign_ids` does assign the new identifiers following
the reading order (r9 becomes r1, r5 becomes r2, r2 becomes r3), but the
reading-order references are rewritten to the bare number strings "1", "2",
"3" that the id-mapping stores — not to the new identifiers r1, r2, r3 the
claim states. -/
theorem c1_reassign_scenario :
    reassign_ids pageC1 "reading_order" = some pageC1After ∧
    regionIdsDoc pageC1After = ["r2", "r3", "r1"] ∧
    refIdsDoc pageC1After = ["1", "2", "3"] ∧
    refIdsDoc pageC1After ≠ ["r1", "r2", "r3"] :=
  ⟨rfl, rfl, rfl, by decide⟩

/-- Claim C2.  After `reassign_ids` on the scenario C page, every entry of
the reading-order reference is a dangling identifier: the references read
"1", "2", "3" while the regions carry r1, r2, r3, so no reference matches any
region id — the claim's "no dangling old identifiers remain" fails. -/
theorem c2_dangling_refs :
    reassign_ids pageC1 "reading_order" = some pageC1After ∧
    (refIdsDoc pageC1After).all (fun r => !((regionIdsDoc pageC1After).contains r)) = true ∧
    refIdsDoc pageC1After ≠ [] :=
  ⟨rfl, rfl, by decide⟩

/-- Claim C3.  `extract_fulltext` with reading order enabled on a page with
two regions (texts "AAA" and "BBB", reading order rA then rB) returns only
the last region's text: the loop body reassigns the accumulator instead of
extending it, so every region but the last is omitted. -/
theorem c3_fulltext_drops_regions :
    extract_fulltext pageTwoRegions false true "\n" = some "BBB" ∧
    extract_fulltext pageTwoRegions false true "\n" ≠ some "AAA\nBBB" :=
  ⟨rfl, by decide⟩

/-- Claim C4.  `dehyphe` on ["exam-", "ple text"] joins as claimed, but on
["Also-", "Ready"] the next line's first word is consumed even though no join
happens: the result is ["Also-", ""] — the word "Ready" is lost — so the
joined full text is "Also-\n", not the claimed unchanged "Also-\nReady". -/
theorem c4_dehyphe_eval :
    dehyphe ["exam-", "ple text"] = ["example", "text"] ∧
    dehyphe ["Also-", "Ready"] = ["Also-", ""] ∧
    String.intercalate "\n" (dehyphe ["Also-", "Ready"]) = "Also-\n" ∧
    String.intercalate " " (dehyphe ["exam-", "ple text"]) = "example text" :=
  ⟨rfl, rfl, rfl, rfl⟩

/-- Claim C6.  With an empty collected file list, six of the seven drivers
raise `FileNotFoundError` before processing anything, but `extend_lines`
does not: its empty-input check is misindented into the per-line overlap
helper (dead code), so the driver returns an empty successful run instead of
aborting. -/
theorem c6_empty_input (fails : String → Bool) (cut dry : Bool) :
    repair_driver [] fails dry = .error "FileNotFoundError" ∧
    reassign_ids_driver [] dry = .error "FileNotFoundError" ∧
    delete_text_driver [] = .error "FileNotFoundError" ∧
    sort_and_merge_driver [] = .error "FileNotFoundError" ∧
    pseudolinepolygon_driver [] fails = .error "FileNotFoundError" ∧
    translate_lines_driver [] fails dry = .error "FileNotFoundError" ∧
    extend_lines_driver [] fails cut dry = .ok [] :=
  ⟨rfl, rfl, rfl, rfl, rfl, rfl, rfl⟩

/-- Claim C10.  For a page of size (W, H): `page_coords` with a returntype
outside the five valid ones returns Python `None` (it never raises, the check
precedes the page lookup), and `page_coords("tuples")` returns exactly the
four corners (0,0), (W,0), (W,H), (0,H) in that order. -/
theorem c10_page_coords (root : XTree) (rt : String) (W H : Int)
    (h : page_size root = some (W, H)) :
    (rt ∉ valid_returntypes → page_coords root rt = some none) ∧
    page_coords root "tuples" = some (some (.tuples [(0, 0), (W, 0), (W, H), (0, H)])) := by
  constructor
  · intro hrt
    unfold page_coords
    rw [if_neg hrt]
  · have hm : "tuples" ∈ valid_returntypes := by decide
    unfold page_coords
    rw [if_pos hm, h]
    rfl

/-- Claim C10 witness: the scenario page has size (1000, 800); "xml" is not a
valid returntype and yields `None`, while "tuples" yields the four
corners. -/
theorem c10_page_coords_witness :
    page_coords pageC1 "xml" = some none ∧
    page_coords pageC1 "tuples" =
      some (some (.tuples [(0, 0), (1000, 0), (1000, 800), (0, 800)])) := by
  have h := c10_page_coords pageC1 "xml" 1000 800 (by decide)
  exact ⟨h.1 (by decide), h.2⟩

/-- Folding group contributions left-to-right equals traversing the filtered
groups and flattening. -/
theorem foldlM_filter_mapMO {α β γ : Type} (p : α → Bool) (q : α → Option γ) (r : γ → List β) :
    ∀ (l : List α) (acc : List β),
      (l.foldlM (fun a g => if p g then (q g).map (fun x => a ++ r x) else pure a) acc)
        = (mapMO (fun g => (q g).map r) (l.filter p)).map (fun ls => acc ++ ls.flatten)
  | [], acc => by simp [mapMO]
  | g :: l, acc => by
    rw [List.foldlM_cons]
    by_cases hp : p g
    · rw [if_pos hp, List.filter_cons_of_pos hp]
      cases hq : q g with
      | none => simp [mapMO, hq]
      | some s =>
        show List.foldlM _ (acc ++ r s) l = _
        rw [foldlM_filter_mapMO p q r l (acc ++ r s)]
        simp only [mapMO, hq, Option.map_some', Option.some_bind]
        cases hm : mapMO (fun g => (q g).map r) (l.filter p) with
        | none => simp [hm]
        | some bs => simp [hm, List.append_assoc]
    · rw [if_neg hp, List.filter_cons_of_neg hp]
      show List.foldlM _ acc l = _
      exact foldlM_filter_mapMO p q r l acc

/-- Claim C5.  The mode contract of `get_region_reading_order_ids`: mode
`reading_order` returns the ids listed by the `RegionRefIndexed` entries of
each `OrderedGroup` sorted by their index attribute; mode `document` returns
the `TableRegion`/`TextRegion` ids in storage order; mode `auto` returns the
reading-order list when it is non-empty and otherwise the document-order
list. -/
theorem c5_mode_contract (root : XTree) :
    get_region_reading_order_ids root "reading_order" = readingOrderIdsSpec root ∧
    get_region_reading_order_ids root "document" = some (docOrderIds root) ∧
    get_region_reading_order_ids root "auto" =
      (readingOrderIdsSpec root).map (fun l => if l.isEmpty then docOrderIds root else l) := by
  refine ⟨?_, ?_, ?_⟩
  · unfold get_region_reading_order_ids readingOrderIdsSpec
    cases hf : root.descOf.find? (fun e => e.tagOf == "ReadingOrder") with
    | none => rfl
    | some ro =>
      show (List.foldlM _ [] ro.descOf >>= _) = _
      rw [foldlM_filter_mapMO]
      cases hm : mapMO (fun g => (regionRefPairs g).map
          (fun prs => (sortByKey Prod.fst prs).map Prod.snd))
          (ro.descOf.filter (fun g => g.tagOf == "OrderedGroup")) with
      | none => simp [hm]
      | some ls => simp [hm, Bool.and_false]
  · rfl
  · unfold get_region_reading_order_ids readingOrderIdsSpec
    cases hf : root.descOf.find? (fun e => e.tagOf == "ReadingOrder") with
    | none => rfl
    | some ro =>
      show (List.foldlM _ [] ro.descOf >>= _) = _
      rw [foldlM_filter_mapMO]
      cases hm : mapMO (fun g => (regionRefPairs g).map
          (fun prs => (sortByKey Prod.fst prs).map Prod.snd))
          (ro.descOf.filter (fun g => g.tagOf == "OrderedGroup")) with
      | none => simp [hm]
      | some ls =>
        simp only [hm, Option.map_some', Option.some_bind,
          show ("auto" == "document") = false from rfl, show ("auto" == "auto") = true from rfl,
          Bool.false_or, Bool.and_true]
        simp only [List.nil_append, Option.bind_eq_bind, Option.some_bind]
        cases he : ls.flatten.isEmpty with
        | true =>
          rw [if_pos rfl, if_pos rfl, List.isEmpty_iff.mp he]
          rfl
        | false => rfl

theorem wroteName_perLine (fails : String → Bool) (l : String) :
    wroteName (perLineEvent fails l) = none := by
  unfold perLineEvent
  cases fails l <;> rfl

theorem filterMap_wrote_lines (fails : String → Bool) :
    ∀ regs : List (List String),
      (regs.flatMap (fun reg => reg.map (perLineEvent fails))).filterMap wroteName = []
  | [] => rfl
  | reg :: rest => by
    rw [List.flatMap_cons, List.filterMap_append, filterMap_wrote_lines fails rest,
      List.append_nil]
    induction reg with
    | nil => rfl
    | cons l ls ih => rw [List.map_cons, List.filterMap_cons, wroteName_perLine]; exact ih

theorem filterMap_wrote_files (fails : String → Bool) :
    ∀ files : List PFile,
      ((files.flatMap (fun f =>
        f.regions.flatMap (fun reg => reg.map (perLineEvent fails)) ++ writeEvent true f)).filterMap
          wroteName) = []
  | [] => rfl
  | f :: rest => by
    rw [List.flatMap_cons, List.filterMap_append, filterMap_wrote_files fails rest,
      List.append_nil, show writeEvent true f = [] from rfl, List.append_nil]
    exact filterMap_wrote_lines fails f.regions

theorem c7_repair_dry (files : List PFile) (fails : String → Bool) :
    writesOf (repair_driver files fails true) = [] := by
  unfold repair_driver
  cases files with
  | nil => rfl
  | cons f rest => exact filterMap_wrote_files fails (f :: rest)

theorem wroteName_extendLine (fe : Bool) (fails : String → Bool) (cut : Bool) (i : Nat)
    (l : String) : wroteName (extendLineEvent fe fails cut i l) = none := by
  unfold extendLineEvent
  cases fails l with
  | true => rfl
  | false => cases (cut && decide (0 < i) && fe) <;> rfl

theorem filterMap_wrote_extendRegs (fe : Bool) (fails : String → Bool) (cut : Bool) :
    ∀ regs : List (List String),
      ((regs.flatMap (fun reg =>
        reg.enum.map (fun il => extendLineEvent fe fails cut il.1 il.2))).filterMap wroteName) = []
  | [] => rfl
  | reg :: rest => by
    rw [List.flatMap_cons, List.filterMap_append, filterMap_wrote_extendRegs fe fails cut rest,
      List.append_nil]
    induction reg.enum with
    | nil => rfl
    | cons il ils ih =>
      rw [List.map_cons, List.filterMap_cons, wroteName_extendLine]; exact ih

theorem filterMap_wrote_extendFiles (fe : Bool) (fails : String → Bool) (cut : Bool) :
    ∀ files : List PFile,
      ((files.flatMap (fun f =>
        f.regions.flatMap (fun reg =>
          reg.enum.map (fun il => extendLineEvent fe fails cut il.1 il.2)) ++
        writeEvent true f)).filterMap wroteName) = []
  | [] => rfl
  | f :: rest => by
    rw [List.flatMap_cons, List.filterMap_append, filterMap_wrote_extendFiles fe fails cut rest,
      List.append_nil, show writeEvent true f = [] from rfl, List.append_nil]
    exact filterMap_wrote_extendRegs fe fails cut f.regions

theorem translateLineRun_no_write (fails : String → Bool) :
    ∀ (reg : List String) (evs : List DEvent), translateLineRun fails reg = .ok evs →
      evs.filterMap wroteName = []
  | [], evs, h => by cases h; rfl
  | l :: rest, evs, h => by
    unfold translateLineRun at h
    cases hf : fails l with
    | true => rw [hf] at h; cases h
    | false =>
      rw [hf] at h
      cases hr : translateLineRun fails rest with
      | error e => rw [hr] at h; cases h
      | ok evs' =>
        rw [hr] at h
        cases h
        rw [List.filterMap_cons]
        exact translateLineRun_no_write fails rest evs' hr

theorem translateRegionsRun_no_write (fails : String → Bool) :
    ∀ (regs : List (List String)) (evs : List DEvent),
      translateRegionsRun fails regs = .ok evs → evs.filterMap wroteName = []
  | [], evs, h => by cases h; rfl
  | reg :: rest, evs, h => by
    unfold translateRegionsRun at h
    cases hl : translateLineRun fails reg with
    | error e => rw [hl] at h; cases h
    | ok evs1 =>
      rw [hl] at h
      cases hr : translateRegionsRun fails rest with
      | error e => rw [hr] at h; cases h
      | ok evs2 =>
        rw [hr] at h
        cases h
        rw [List.filterMap_append, translateLineRun_no_write fails reg evs1 hl,
          translateRegionsRun_no_write fails rest evs2 hr]
        rfl

theorem translateRun_no_write (fails : String → Bool) :
    ∀ (files : List PFile) (evs : List DEvent),
      translateRun fails true files = .ok evs → evs.filterMap wroteName = []
  | [], evs, h => by cases h; rfl
  | f :: rest, evs, h => by
    unfold translateRun translateFileRun at h
    cases hg : translateRegionsRun fails f.regions with
    | error e => rw [hg] at h; cases h
    | ok evs1 =>
      rw [hg] at h
      cases hr : translateRun fails true rest with
      | error e => rw [hr] at h; cases h
      | ok evs2 =>
        rw [hr] at h
        cases h
        rw [List.filterMap_append, List.filterMap_append,
          translateRegionsRun_no_write fails f.regions evs1 hg,
          translateRun_no_write fails rest evs2 hr, show writeEvent true f = [] from rfl]
        rfl

theorem filterMap_wrote_names :
    ∀ files : List PFile, ((files.map (fun f => DEvent.wrote f.name)).filterMap wroteName) =
      files.map PFile.name
  | [] => rfl
  | f :: rest => by
    rw [List.map_cons, List.filterMap_cons, show wroteName (DEvent.wrote f.name) = some f.name
      from rfl, List.map_cons, filterMap_wrote_names rest]

theorem filterMap_wrote_pseudo (fails : String → Bool) :
    ∀ files : List PFile,
      ((files.flatMap (fun f =>
        f.regions.flatMap (fun reg => reg.map (perLineEvent fails)) ++ [DEvent.wrote f.name])).filterMap
          wroteName) = files.map PFile.name
  | [] => rfl
  | f :: rest => by
    rw [List.flatMap_cons, List.filterMap_append, List.filterMap_append,
      filterMap_wrote_lines fails f.regions, filterMap_wrote_pseudo fails rest,
      show (([DEvent.wrote f.name] : List DEvent).filterMap wroteName) = [f.name] from rfl,
      List.nil_append, List.map_cons]
    rfl

/-- Claim C7 counterexample.  `delete_text`, `sort_and_merge` and
`pseudolinepolygon` accept no dry-run flag: a run over one file always emits
a write event, so no invocation of these drivers computes without writing. -/
theorem c7_counterexample :
    delete_text_driver [⟨"f.xml", [["l1"]]⟩] = .ok [.wrote "f.xml"] ∧
    sort_and_merge_driver [⟨"f.xml", [["l1"]]⟩] = .ok [.wrote "f.xml"] ∧
    pseudolinepolygon_driver [⟨"f.xml", [["l1"]]⟩] (fun _ => false) =
      .ok [.processed "l1", .wrote "f.xml"] :=
  ⟨rfl, rfl, rfl⟩

/-- Claim C7 as amended.  Only `repair`, `extend_lines`, `reassign_ids` and
`translate_lines` accept a dry-run flag — with it set they write no file —
while `delete_text`, `sort_and_merge` and `pseudolinepolygon` have no such
flag and write every processed file unconditionally. -/
theorem c7_dry_run_contract (files : List PFile) (fails : String → Bool) (cut : Bool) :
    writesOf (repair_driver files fails true) = [] ∧
    writesOf (extend_lines_driver files fails cut true) = [] ∧
    writesOf (reassign_ids_driver files true) = [] ∧
    writesOf (translate_lines_driver files fails true) = [] ∧
    writesOf (delete_text_driver files) = (if files.isEmpty then [] else files.map PFile.name) ∧
    writesOf (sort_and_merge_driver files) = (if files.isEmpty then [] else files.map PFile.name) ∧
    writesOf (pseudolinepolygon_driver files fails) =
      (if files.isEmpty then [] else files.map PFile.name) := by
  refine ⟨?_, ?_, ?_, ?_, ?_, ?_, ?_⟩
  · unfold repair_driver
    cases files with
    | nil => rfl
    | cons f rest => exact filterMap_wrote_files fails (f :: rest)
  · unfold extend_lines_driver
    exact filterMap_wrote_extendFiles files.isEmpty fails cut files
  · unfold reassign_ids_driver
    cases files with
    | nil => rfl
    | cons f rest =>
      show List.filterMap wroteName _ = []
      induction (f :: rest : List PFile) with
      | nil => rfl
      | cons g gs ih => rw [List.flatMap_cons, show writeEvent true g = [] from rfl,
          List.nil_append]; exact ih
  · unfold translate_lines_driver
    cases files with
    | nil => rfl
    | cons f rest =>
      cases hr : translateRun fails true (f :: rest) with
      | error e => simp [writesOf, hr]
      | ok evs =>
        simp only [List.isEmpty_cons, if_neg Bool.false_ne_true, hr]
        exact translateRun_no_write fails (f :: rest) evs hr
  · unfold delete_text_driver
    cases files with
    | nil => rfl
    | cons f rest =>
      rw [if_neg (by simp), if_neg (by simp)]
      exact filterMap_wrote_names (f :: rest)
  · unfold sort_and_merge_driver
    cases files with
    | nil => rfl
    | cons f rest =>
      rw [if_neg (by simp), if_neg (by simp)]
      exact filterMap_wrote_names (f :: rest)
  · unfold pseudolinepolygon_driver
    cases files with
    | nil => rfl
    | cons f rest =>
      rw [if_neg (by simp), if_neg (by simp)]
      exact filterMap_wrote_pseudo fails (f :: rest)

theorem extendLineEvent_eq_perLine (fails : String → Bool) (cut : Bool) (i : Nat) (l : String) :
    extendLineEvent false fails cut i l = perLineEvent fails l := by
  unfold extendLineEvent perLineEvent
  cases fails l with
  | true => rfl
  | false => rw [Bool.and_false, if_neg Bool.false_ne_true, if_neg Bool.false_ne_true]

theorem extend_events_eq (fails : String → Bool) (cut : Bool) (reg : List String) :
    reg.enum.map (fun il => extendLineEvent false fails cut il.1 il.2) =
      reg.map (perLineEvent fails) := by
  calc reg.enum.map (fun il => extendLineEvent false fails cut il.1 il.2)
      = reg.enum.map (fun il => perLineEvent fails il.2) := by
        apply List.map_congr_left
        intro il _
        exact extendLineEvent_eq_perLine fails cut il.1 il.2
    _ = (reg.enum.map Prod.snd).map (perLineEvent fails) := by rw [List.map_map]; rfl
    _ = reg.map (perLineEvent fails) := by rw [List.enum_map_snd]

/-- Claim C8 counterexample.  `translate_lines` has no per-line try/except:
with two lines in one region where the first line's geometric operation
fails, the whole driver aborts with the exception — the second line is never
processed and nothing is written, against the claim that one failing line
never aborts the rest. -/
theorem c8_counterexample :
    translate_lines_driver [⟨"f.xml", [["a", "b"]]⟩] (fun l => l == "a") false = .error "a" :=
  rfl

/-- Claim C8 as amended.  In `repair`, `pseudolinepolygon` and
`extend_lines` a per-line failure is caught and logged and every other line
of the batch still gets its event, with the files still written (unless
dry-run); in `translate_lines` a failing line aborts the run with the
exception. -/
theorem c8_per_line_isolation (files : List PFile) (fails : String → Bool) (dry cut : Bool) :
    (files ≠ [] → ∃ evs, repair_driver files fails dry = .ok evs ∧
      (∀ f ∈ files, ∀ reg ∈ f.regions, ∀ l ∈ reg, perLineEvent fails l ∈ evs) ∧
      (dry = false → ∀ f ∈ files, DEvent.wrote f.name ∈ evs)) ∧
    (files ≠ [] → ∃ evs, pseudolinepolygon_driver files fails = .ok evs ∧
      (∀ f ∈ files, ∀ reg ∈ f.regions, ∀ l ∈ reg, perLineEvent fails l ∈ evs) ∧
      (∀ f ∈ files, DEvent.wrote f.name ∈ evs)) ∧
    (files ≠ [] → ∃ evs, extend_lines_driver files fails cut dry = .ok evs ∧
      (∀ f ∈ files, ∀ reg ∈ f.regions, ∀ l ∈ reg, perLineEvent fails l ∈ evs) ∧
      (dry = false → ∀ f ∈ files, DEvent.wrote f.name ∈ evs)) ∧
    (∀ (n l : String) (ls : List String) (rest : List (List String)), fails l = true →
      translate_lines_driver [⟨n, (l :: ls) :: rest⟩] fails dry = .error l) := by
  refine ⟨?_, ?_, ?_, ?_⟩
  · intro hne
    refine ⟨files.flatMap (fun f =>
      f.regions.flatMap (fun reg => reg.map (perLineEvent fails)) ++ writeEvent dry f),
      ?_, ?_, ?_⟩
    · unfold repair_driver
      rw [if_neg (by simpa using hne)]
    · intro f hf reg hreg l hl
      refine List.mem_flatMap.mpr ⟨f, hf, List.mem_append_left _ ?_⟩
      exact List.mem_flatMap.mpr ⟨reg, hreg, List.mem_map_of_mem _ hl⟩
    · intro hdry f hf
      refine List.mem_flatMap.mpr ⟨f, hf, List.mem_append_right _ ?_⟩
      rw [hdry]
      exact List.mem_singleton.mpr rfl
  · intro hne
    refine ⟨files.flatMap (fun f =>
      f.regions.flatMap (fun reg => reg.map (perLineEvent fails)) ++ [DEvent.wrote f.name]),
      ?_, ?_, ?_⟩
    · unfold pseudolinepolygon_driver
      rw [if_neg (by simpa using hne)]
    · intro f hf reg hreg l hl
      refine List.mem_flatMap.mpr ⟨f, hf, List.mem_append_left _ ?_⟩
      exact List.mem_flatMap.mpr ⟨reg, hreg, List.mem_map_of_mem _ hl⟩
    · intro f hf
      refine List.mem_flatMap.mpr ⟨f, hf, List.mem_append_right _ ?_⟩
      exact List.mem_singleton.mpr rfl
  · intro hne
    refine ⟨files.flatMap (fun f =>
      f.regions.flatMap (fun reg =>
        reg.enum.map (fun il => extendLineEvent files.isEmpty fails cut il.1 il.2)) ++
      writeEvent dry f), rfl, ?_, ?_⟩
    · intro f hf reg hreg l hl
      refine List.mem_flatMap.mpr ⟨f, hf, List.mem_append_left _ ?_⟩
      refine List.mem_flatMap.mpr ⟨reg, hreg, ?_⟩
      rw [show files.isEmpty = false by simpa using hne, extend_events_eq fails cut reg]
      exact List.mem_map_of_mem _ hl
    · intro hdry f hf
      refine List.mem_flatMap.mpr ⟨f, hf, List.mem_append_right _ ?_⟩
      rw [hdry]
      exact List.mem_singleton.mpr rfl
  · intro n l ls rest hfl
    unfold translate_lines_driver translateRun translateFileRun translateRegionsRun
      translateLineRun
    simp [hfl]

/-- Claim C8 witness: with line "a" failing, `repair` still processes line
"b" and writes the file, while `translate_lines` aborts. -/
theorem c8_per_line_isolation_witness :
    (∃ evs, repair_driver [⟨"f.xml", [["a", "b"]]⟩] (fun l => l == "a") false = .ok evs ∧
      perLineEvent (fun l => l == "a") "a" ∈ evs ∧
      perLineEvent (fun l => l == "a") "b" ∈ evs ∧
      DEvent.wrote "f.xml" ∈ evs) ∧
    translate_lines_driver [⟨"f.xml", [["a", "b"]]⟩] (fun l => l == "a") false = .error "a" := by
  have h := c8_per_line_isolation [⟨"f.xml", [["a", "b"]]⟩] (fun l => l == "a") false true
  obtain ⟨evs, h1, h2, h3⟩ := h.1 (by decide)
  refine ⟨⟨evs, h1, ?_, ?_, ?_⟩, ?_⟩
  · exact h2 ⟨"f.xml", [["a", "b"]]⟩ (by decide) ["a", "b"] (by decide) "a" (by decide)
  · exact h2 ⟨"f.xml", [["a", "b"]]⟩ (by decide) ["a", "b"] (by decide) "b" (by decide)
  · exact h3 rfl ⟨"f.xml", [["a", "b"]]⟩ (by decide)
  · exact h.2.2.2 "f.xml" "a" ["b"] [] rfl

theorem countTag_stripTag_self (tg : String) : ∀ x, XTree.countTag tg (stripTag tg x) = 0
  | .nil => rfl
  | .node t a s c sib => by
    unfold stripTag
    by_cases h : t == tg
    · rw [if_pos h]; exact countTag_stripTag_self tg sib
    · rw [if_neg h]
      show (if t == tg then 1 else 0) + XTree.countTag tg (stripTag tg c)
        + XTree.countTag tg (stripTag tg sib) = 0
      rw [if_neg h, countTag_stripTag_self tg c, countTag_stripTag_self tg sib]

theorem countTag_stripTag (a tg : String) (hne : (tg == a) = false) :
    ∀ x, XTree.countTag tg (stripTag a x) = XTree.countTagAvoid a tg x
  | .nil => rfl
  | .node t a' s c sib => by
    unfold stripTag XTree.countTagAvoid
    by_cases h : t == a
    · rw [if_pos h, if_pos h]; exact countTag_stripTag a tg hne sib
    · rw [if_neg h, if_neg h]
      show (if t == tg then 1 else 0) + XTree.countTag tg (stripTag a c)
        + XTree.countTag tg (stripTag a sib) = _
      rw [countTag_stripTag a tg hne c, countTag_stripTag a tg hne sib]

theorem countTagUnder_true_eq (a tg : String) :
    ∀ x, XTree.countTagUnder a tg true x = XTree.countTag tg x
  | .nil => rfl
  | .node t a' s c sib => by
    show (if true && t == tg then 1 else 0) + XTree.countTagUnder a tg (true || t == a) c
      + XTree.countTagUnder a tg true sib = _
    rw [Bool.true_and, Bool.true_or, countTagUnder_true_eq a tg c, countTagUnder_true_eq a tg sib]
    rfl

theorem countTagUnder_le (a tg : String) :
    ∀ (x : XTree) (i : Bool), XTree.countTagUnder a tg i x ≤ XTree.countTag tg x
  | .nil, _ => Nat.le_refl 0
  | .node t a' s c sib, i => by
    show (if i && t == tg then 1 else 0) + XTree.countTagUnder a tg (i || t == a) c
      + XTree.countTagUnder a tg i sib ≤
      (if t == tg then 1 else 0) + XTree.countTag tg c + XTree.countTag tg sib
    have h1 : (if i && t == tg then 1 else 0) ≤ (if t == tg then (1:Nat) else 0) := by
      cases i <;> cases h : t == tg <;> simp
    exact Nat.add_le_add (Nat.add_le_add h1 (countTagUnder_le a tg c _))
      (countTagUnder_le a tg sib i)

theorem countTag_dropFirst (a tg : String) (hne : (tg == a) = false) :
    ∀ x, XTree.countTagUnder a tg false x = 0 →
      XTree.countTag tg (dropFirstChild a x) = XTree.countTag tg x
  | .nil, _ => rfl
  | .node t a' s c sib, h => by
    have hexp : (if false && t == tg then 1 else 0)
        + XTree.countTagUnder a tg (false || t == a) c
        + XTree.countTagUnder a tg false sib = 0 := h
    rw [Bool.false_and, if_neg Bool.false_ne_true, Bool.false_or] at hexp
    unfold dropFirstChild
    by_cases ht : t == a
    · rw [if_pos ht]
      have hc0 : XTree.countTagUnder a tg (t == a) c = 0 := by omega
      rw [ht, countTagUnder_true_eq] at hc0
      have httg : (t == tg) = false := by
        have : t = a := by simpa using ht
        subst this
        simpa [BEq.comm] using hne
      show XTree.countTag tg sib
        = (if t == tg then 1 else 0) + XTree.countTag tg c + XTree.countTag tg sib
      rw [httg, hc0]
      simp
    · rw [if_neg ht]
      have hs0 : XTree.countTagUnder a tg false sib = 0 := by omega
      show (if t == tg then 1 else 0) + XTree.countTag tg c
        + XTree.countTag tg (dropFirstChild a sib) = _
      rw [countTag_dropFirst a tg hne sib hs0]
      rfl

theorem countTagUnder_dropFirst (a tg : String) :
    ∀ (x : XTree) (i : Bool), XTree.countTagUnder a tg i x = 0 →
      XTree.countTagUnder a tg i (dropFirstChild a x) = 0
  | .nil, _, _ => rfl
  | .node t a' s c sib, i, h => by
    have hexp : (if i && t == tg then 1 else 0)
        + XTree.countTagUnder a tg (i || t == a) c
        + XTree.countTagUnder a tg i sib = 0 := h
    unfold dropFirstChild
    by_cases ht : t == a
    · rw [if_pos ht]
      omega
    · rw [if_neg ht]
      have hs0 : XTree.countTagUnder a tg i sib = 0 := by omega
      show (if i && t == tg then 1 else 0) + XTree.countTagUnder a tg (i || t == a) c
        + XTree.countTagUnder a tg i (dropFirstChild a sib) = 0
      rw [countTagUnder_dropFirst a tg sib i hs0]
      omega

theorem countTag_node (tg t : String) (a : List (String × String)) (s : Option String)
    (c sib : XTree) : XTree.countTag tg (.node t a s c sib)
      = (if t == tg then 1 else 0) + XTree.countTag tg c + XTree.countTag tg sib := rfl

theorem countTagUnder_node (a tg : String) (i : Bool) (t : String)
    (a' : List (String × String)) (s : Option String) (c sib : XTree) :
    XTree.countTagUnder a tg i (.node t a' s c sib)
      = (if i && t == tg then 1 else 0) + XTree.countTagUnder a tg (i || t == a) c
        + XTree.countTagUnder a tg i sib := rfl

theorem delLines_counts (tg : String) (hne : (tg == "TextEquiv") = false) :
    ∀ (x : XTree) (inR inT inside : Bool),
      XTree.countTagUnder "TextEquiv" tg inside x = 0 →
      XTree.countTag tg (delLinesT inR inT x) = XTree.countTag tg x ∧
      XTree.countTagUnder "TextEquiv" tg inside (delLinesT inR inT x) = 0
  | .nil, _, _, _, _ => ⟨rfl, rfl⟩
  | .node t a s c sib, inR, inT, inside, h => by
    have hexp : (if inside && t == tg then 1 else 0)
        + XTree.countTagUnder "TextEquiv" tg (inside || t == "TextEquiv") c
        + XTree.countTagUnder "TextEquiv" tg inside sib = 0 := h
    have hc0 : XTree.countTagUnder "TextEquiv" tg (inside || t == "TextEquiv") c = 0 := by omega
    have hs0 : XTree.countTagUnder "TextEquiv" tg inside sib = 0 := by omega
    have hhead : (if inside && t == tg then 1 else 0) = 0 := by omega
    obtain ⟨ihc1, ihc2⟩ := delLines_counts tg hne c
      (inR || t == "TextRegion" || (inT && t == "TableCell")) (inT || t == "TableRegion")
      (inside || t == "TextEquiv") hc0
    obtain ⟨ihs1, ihs2⟩ := delLines_counts tg hne sib inR inT inside hs0
    have hdef : delLinesT inR inT (.node t a s c sib)
        = .node t a s
          (if inR && t == "TextLine" then
            dropFirstChild "TextEquiv"
              (delLinesT (inR || t == "TextRegion" || (inT && t == "TableCell"))
                (inT || t == "TableRegion") c)
          else
            delLinesT (inR || t == "TextRegion" || (inT && t == "TableCell"))
              (inT || t == "TableRegion") c)
          (delLinesT inR inT sib) := rfl
    have hfalse : XTree.countTagUnder "TextEquiv" tg false
        (delLinesT (inR || t == "TextRegion" || (inT && t == "TableCell"))
          (inT || t == "TableRegion") c) = 0 := by
      cases hio : (inside || t == "TextEquiv") with
      | false => rw [hio] at ihc2; exact ihc2
      | true =>
        rw [hio] at ihc2
        rw [countTagUnder_true_eq] at ihc2
        have := countTagUnder_le "TextEquiv" tg
          (delLinesT (inR || t == "TextRegion" || (inT && t == "TableCell"))
            (inT || t == "TableRegion") c) false
        omega
    have hcc : XTree.countTag tg
        (if inR && t == "TextLine" then
          dropFirstChild "TextEquiv"
            (delLinesT (inR || t == "TextRegion" || (inT && t == "TableCell"))
              (inT || t == "TableRegion") c)
        else
          delLinesT (inR || t == "TextRegion" || (inT && t == "TableCell"))
            (inT || t == "TableRegion") c) = XTree.countTag tg c := by
      by_cases hl : (inR && t == "TextLine") = true
      · rw [if_pos hl, countTag_dropFirst "TextEquiv" tg hne _ hfalse]
        exact ihc1
      · rw [if_neg hl]
        exact ihc1
    have hcu : XTree.countTagUnder "TextEquiv" tg (inside || t == "TextEquiv")
        (if inR && t == "TextLine" then
          dropFirstChild "TextEquiv"
            (delLinesT (inR || t == "TextRegion" || (inT && t == "TableCell"))
              (inT || t == "TableRegion") c)
        else
          delLinesT (inR || t == "TextRegion" || (inT && t == "TableCell"))
            (inT || t == "TableRegion") c) = 0 := by
      by_cases hl : (inR && t == "TextLine") = true
      · rw [if_pos hl]
        exact countTagUnder_dropFirst "TextEquiv" tg _ _ ihc2
      · rw [if_neg hl]
        exact ihc2
    constructor
    · rw [hdef, countTag_node, countTag_node, hcc, ihs1]
    · rw [hdef, countTagUnder_node, hhead, hcu, ihs2]

theorem delRegions_counts (tg : String) (hne : (tg == "TextEquiv") = false) :
    ∀ (x : XTree) (inside : Bool),
      XTree.countTagUnder "TextEquiv" tg inside x = 0 →
      XTree.countTag tg (delRegionsT x) = XTree.countTag tg x ∧
      XTree.countTagUnder "TextEquiv" tg inside (delRegionsT x) = 0
  | .nil, _, _ => ⟨rfl, rfl⟩
  | .node t a s c sib, inside, h => by
    have hexp : (if inside && t == tg then 1 else 0)
        + XTree.countTagUnder "TextEquiv" tg (inside || t == "TextEquiv") c
        + XTree.countTagUnder "TextEquiv" tg inside sib = 0 := h
    have hc0 : XTree.countTagUnder "TextEquiv" tg (inside || t == "TextEquiv") c = 0 := by omega
    have hs0 : XTree.countTagUnder "TextEquiv" tg inside sib = 0 := by omega
    have hhead : (if inside && t == tg then 1 else 0) = 0 := by omega
    obtain ⟨ihc1, ihc2⟩ := delRegions_counts tg hne c (inside || t == "TextEquiv") hc0
    obtain ⟨ihs1, ihs2⟩ := delRegions_counts tg hne sib inside hs0
    have hdef : delRegionsT (.node t a s c sib)
        = .node t a s
          (if t == "TextRegion" || t == "TableRegion" then
            dropFirstChild "TextEquiv" (delRegionsT c)
          else delRegionsT c)
          (delRegionsT sib) := rfl
    have hfalse : XTree.countTagUnder "TextEquiv" tg false (delRegionsT c) = 0 := by
      cases hio : (inside || t == "TextEquiv") with
      | false => rw [hio] at ihc2; exact ihc2
      | true =>
        rw [hio] at ihc2
        rw [countTagUnder_true_eq] at ihc2
        have := countTagUnder_le "TextEquiv" tg (delRegionsT c) false
        omega
    have hcc : XTree.countTag tg
        (if t == "TextRegion" || t == "TableRegion" then
          dropFirstChild "TextEquiv" (delRegionsT c)
        else delRegionsT c) = XTree.countTag tg c := by
      by_cases hl : (t == "TextRegion" || t == "TableRegion") = true
      · rw [if_pos hl, countTag_dropFirst "TextEquiv" tg hne _ hfalse]
        exact ihc1
      · rw [if_neg hl]
        exact ihc1
    have hcu : XTree.countTagUnder "TextEquiv" tg (inside || t == "TextEquiv")
        (if t == "TextRegion" || t == "TableRegion" then
          dropFirstChild "TextEquiv" (delRegionsT c)
        else delRegionsT c) = 0 := by
      by_cases hl : (t == "TextRegion" || t == "TableRegion") = true
      · rw [if_pos hl]
        exact countTagUnder_dropFirst "TextEquiv" tg _ _ ihc2
      · rw [if_neg hl]
        exact ihc2
    constructor
    · rw [hdef, countTag_node, countTag_node, hcc, ihs1]
    · rw [hdef, countTagUnder_node, hhead, hcu, ihs2]

/-- The code's `dropFirstChild` stands in the first-removal relation. -/
theorem removesFirstTagged_dropFirstChild (tg : String) :
    ∀ x, RemovesFirstTagged tg x (dropFirstChild tg x)
  | .nil => .nil
  | .node t a s c sib => by
    unfold dropFirstChild
    by_cases h : (t == tg) = true
    · rw [if_pos h]
      exact .here t a s c sib h
    · rw [if_neg h]
      exact .there t a s c sib _ (by simpa using h) (removesFirstTagged_dropFirstChild tg sib)

/-- The code's `stripTag "Word"` stands in the word-strip relation. -/
theorem wordStripRel_stripTag : ∀ x, WordStripRel x (stripTag "Word" x)
  | .nil => .nil
  | .node t a s c sib => by
    unfold stripTag
    by_cases h : (t == "Word") = true
    · rw [if_pos h]
      exact .drop t a s c sib _ h (wordStripRel_stripTag sib)
    · rw [if_neg h]
      exact .keep t a s c sib _ _ (by simpa using h) (wordStripRel_stripTag c)
        (wordStripRel_stripTag sib)

/-- The code's `_delete_lines` traversal stands in the line-level relation:
it removes exactly the first `TextEquiv` of every text line in region
context and changes nothing else. -/
theorem lineLevelRel_delLinesT : ∀ (x : XTree) (inR inT : Bool),
    LineLevelRel inR inT x (delLinesT inR inT x)
  | .nil, inR, inT => .nil inR inT
  | .node t a s c sib, inR, inT => by
    have ihc := lineLevelRel_delLinesT c
      (inR || t == "TextRegion" || (inT && t == "TableCell")) (inT || t == "TableRegion")
    have ihs := lineLevelRel_delLinesT sib inR inT
    have hdef : delLinesT inR inT (.node t a s c sib)
        = .node t a s
          (if inR && t == "TextLine" then
            dropFirstChild "TextEquiv"
              (delLinesT (inR || t == "TextRegion" || (inT && t == "TableCell"))
                (inT || t == "TableRegion") c)
          else
            delLinesT (inR || t == "TextRegion" || (inT && t == "TableCell"))
              (inT || t == "TableRegion") c)
          (delLinesT inR inT sib) := rfl
    rw [hdef]
    by_cases h : (inR && (t == "TextLine")) = true
    · rw [if_pos h]
      exact .line inR inT t a s c sib _ _ _ h ihc
        (removesFirstTagged_dropFirstChild "TextEquiv" _) ihs
    · rw [if_neg h]
      exact .keep inR inT t a s c sib _ _ (by simpa using h) ihc ihs

/-- The code's `_delete_regions` traversal stands in the region-level
relation: it removes exactly the first `TextEquiv` of every region element
and changes nothing else. -/
theorem regionLevelRel_delRegionsT : ∀ x : XTree, RegionLevelRel x (delRegionsT x)
  | .nil => .nil
  | .node t a s c sib => by
    have ihc := regionLevelRel_delRegionsT c
    have ihs := regionLevelRel_delRegionsT sib
    have hdef : delRegionsT (.node t a s c sib)
        = .node t a s
          (if t == "TextRegion" || t == "TableRegion" then
            dropFirstChild "TextEquiv" (delRegionsT c)
          else delRegionsT c)
          (delRegionsT sib) := rfl
    rw [hdef]
    by_cases h : (t == "TextRegion" || t == "TableRegion") = true
    · rw [if_pos h]
      exact .region t a s c sib _ _ _ h ihc
        (removesFirstTagged_dropFirstChild "TextEquiv" _) ihs
    · rw [if_neg h]
      exact .keep t a s c sib _ _ (by simpa using h) ihc ihs

/-- Claim C9 counterexample.  Removing the word level deletes the Word
subtree together with the word's own `Coords` geometry (3 Coords before, 2
after), and removing the line level deletes only the FIRST `TextEquiv` child
of a line — the page's text line still carries a `TextEquiv` child
afterwards — against the claim that all geometry stays and the line-level
transcription content is removed. -/
theorem c9_counterexample :
    XTree.countTag "Coords" pageWithWord = 3 ∧
    XTree.countTag "Coords" (delete_textlevel pageWithWord "word") = 2 ∧
    XTree.countTag "TextLine" (delete_textlevel pageWithWord "line") = 1 ∧
    ((delete_textlevel pageWithWord "line").descOf.filter
      (fun e => e.tagOf == "TextLine")).all
        (fun tl => tl.childrenList.any (fun ch => ch.tagOf == "TextEquiv")) = true :=
  ⟨rfl, rfl, rfl, rfl⟩

/-- Claim C9 as amended.  For a detached page root that is not itself a
`Word` and whose `TextEquiv` subtrees contain no geometry (as in PAGE XML):
an unknown level leaves the document unchanged; `word` removes every `Word`
subtree and nothing else (the word-strip relation, plus the root data
preserved and exactly the `Coords`/`Baseline` outside `Word` subtrees kept);
`line` removes exactly the first `TextEquiv` child of each text line in
region context and `region` exactly the first `TextEquiv` child of each
region element, every other element keeping its tag, attributes, text,
children and position (the line-level and region-level relations), with all
`Coords` and `Baseline` counts intact. -/
theorem c9_delete_textlevel_amended (p : XTree) (level : String)
    (hroot : (p.tagOf == "Word") = false) (hsib : p.sibOf = .nil)
    (hC : XTree.countTagUnder "TextEquiv" "Coords" false p = 0)
    (hB : XTree.countTagUnder "TextEquiv" "Baseline" false p = 0) :
    (level ∉ ["word", "line", "region"] → delete_textlevel p level = p) ∧
    XTree.countTag "Word" (delete_textlevel p "word") = 0 ∧
    XTree.countTag "Coords" (delete_textlevel p "word")
      = XTree.countTagAvoid "Word" "Coords" p ∧
    XTree.countTag "Baseline" (delete_textlevel p "word")
      = XTree.countTagAvoid "Word" "Baseline" p ∧
    XTree.countTag "Coords" (delete_textlevel p "line") = XTree.countTag "Coords" p ∧
    XTree.countTag "Baseline" (delete_textlevel p "line") = XTree.countTag "Baseline" p ∧
    XTree.countTag "Coords" (delete_textlevel p "region") = XTree.countTag "Coords" p ∧
    XTree.countTag "Baseline" (delete_textlevel p "region") = XTree.countTag "Baseline" p ∧
    ((delete_textlevel p "word").tagOf = p.tagOf ∧
      (delete_textlevel p "word").attrsOf = p.attrsOf ∧
      (delete_textlevel p "word").textOf = p.textOf ∧
      (delete_textlevel p "word").sibOf = p.sibOf) ∧
    WordStripRel p.childOf ((delete_textlevel p "word").childOf) ∧
    LineLevelRel false false p (delete_textlevel p "line") ∧
    RegionLevelRel p (delete_textlevel p "region") := by
  refine ⟨?_, ?_, ?_, ?_, ?_, ?_, ?_, ?_, ?_, ?_, ?_, ?_⟩
  · intro hl
    have h1 : (level == "word") = false := by
      cases h : level == "word" with
      | true => exact absurd (by simp [(beq_iff_eq).mp h]) hl
      | false => rfl
    have h2 : (level == "line") = false := by
      cases h : level == "line" with
      | true => exact absurd (by simp [(beq_iff_eq).mp h]) hl
      | false => rfl
    have h3 : (level == "region") = false := by
      cases h : level == "region" with
      | true => exact absurd (by simp [(beq_iff_eq).mp h]) hl
      | false => rfl
    unfold delete_textlevel
    rw [h1, h2, h3]
    rfl
  · cases p with
    | nil => rfl
    | node t a s c sib =>
      show XTree.countTag "Word" (.node t a s (stripTag "Word" c) sib) = 0
      rw [countTag_node, countTag_stripTag_self "Word" c]
      have ht : (t == "Word") = false := hroot
      have hsib' : sib = .nil := hsib
      rw [ht, hsib']
      rfl
  · cases p with
    | nil => rfl
    | node t a s c sib =>
      show XTree.countTag "Coords" (.node t a s (stripTag "Word" c) sib)
        = XTree.countTagAvoid "Word" "Coords" (.node t a s c sib)
      have ht : (t == "Word") = false := hroot
      rw [countTag_node, countTag_stripTag "Word" "Coords" rfl c]
      show _ = (if t == "Word" then XTree.countTagAvoid "Word" "Coords" sib
        else (if t == "Coords" then 1 else 0) + XTree.countTagAvoid "Word" "Coords" c
          + XTree.countTagAvoid "Word" "Coords" sib)
      rw [ht, if_neg Bool.false_ne_true]
      have hsib' : sib = .nil := hsib
      rw [hsib']
      rfl
  · cases p with
    | nil => rfl
    | node t a s c sib =>
      show XTree.countTag "Baseline" (.node t a s (stripTag "Word" c) sib)
        = XTree.countTagAvoid "Word" "Baseline" (.node t a s c sib)
      have ht : (t == "Word") = false := hroot
      rw [countTag_node, countTag_stripTag "Word" "Baseline" rfl c]
      show _ = (if t == "Word" then XTree.countTagAvoid "Word" "Baseline" sib
        else (if t == "Baseline" then 1 else 0) + XTree.countTagAvoid "Word" "Baseline" c
          + XTree.countTagAvoid "Word" "Baseline" sib)
      rw [ht, if_neg Bool.false_ne_true]
      have hsib' : sib = .nil := hsib
      rw [hsib']
      rfl
  · exact (delLines_counts "Coords" rfl p false false false hC).1
  · exact (delLines_counts "Baseline" rfl p false false false hB).1
  · exact (delRegions_counts "Coords" rfl p false hC).1
  · exact (delRegions_counts "Baseline" rfl p false hB).1
  · cases p with
    | nil => exact ⟨rfl, rfl, rfl, rfl⟩
    | node t a s c sib => exact ⟨rfl, rfl, rfl, rfl⟩
  · cases p with
    | nil => exact .nil
    | node t a s c sib => exact wordStripRel_stripTag c
  · exact lineLevelRel_delLinesT p false false
  · exact regionLevelRel_delRegionsT p

/-- Claim C9 witness: the concrete page satisfies the hypotheses; an unknown
level is the identity, word mode leaves no Word, line mode preserves the
baseline count, and the line-level and region-level removal relations hold
on the page. -/
theorem c9_delete_textlevel_amended_witness :
    delete_textlevel pageWithWord "style" = pageWithWord ∧
    XTree.countTag "Word" (delete_textlevel pageWithWord "word") = 0 ∧
    XTree.countTag "Baseline" (delete_textlevel pageWithWord "line")
      = XTree.countTag "Baseline" pageWithWord ∧
    LineLevelRel false false pageWithWord (delete_textlevel pageWithWord "line") ∧
    RegionLevelRel pageWithWord (delete_textlevel pageWithWord "region") := by
  have h := c9_delete_textlevel_amended pageWithWord "style" (by decide) (by decide)
    (by decide) (by decide)
  obtain ⟨g1, g2, g3, g4, g5, g6, g7, g8, g9, g10, g11, g12⟩ := h
  exact ⟨g1 (by decide), g2, g6, g11, g12⟩
